import Mathlib

/-
Shallow embedding of src/data_management/DataLoader.py.

Conventions of the embedding:
  * numpy arrays become Lean lists: a feature matrix is a row-major
    `List (List ℚ)` (or a list of typed rows), a label vector a `List`.
  * Python floats are modelled as exact rationals `ℚ`.
  * the filesystem is a partial map `String → Option (CacheFile α β)`;
    `pickle.dump` of the save bundle produces a `CacheFile.dict` whose four
    optional fields model the presence of the four dictionary keys, and
    `CacheFile.corrupt` models a file that `pickle.load` cannot read.
  * methods that mutate `self` become functions `Loader α β → Loader α β`
    (paired with a success flag, or with the updated filesystem, where the
    Python method can raise or write).
-/

/-- Python `int(q)` for a rational `q`, as used in `DataLoader.split_data`
(`int(self.percentage_historical_data * len(self.X))`).  Python `int()`
truncates toward zero; for the nonnegative arguments that arise from a
percentage and a length this is the floor, computed here by integer
division so that the kernel can evaluate it. -/
def truncNat (q : ℚ) : ℕ := q.num.toNat / q.den

/-- State of a `DataLoader` instance: the fields assigned in
`DataLoader.__init__`.  `α` is the type of one feature row, `β` the type of
one label. -/
structure Loader (α β : Type) where
  data_path : String
  percentage_historical_data : ℚ
  X : List α
  y : List β
  X_historical : List α
  y_historical : List β
  list_classes : Option (List β)

/-- `DataLoader.__init__(data_path, percentage_historical_data)`: the four
array fields and `list_classes` start as `None`; arrays are modelled as
empty lists (they are only read after being assigned) and the class
inventory as `none`. -/
def DataLoader_init (α β : Type) (path : String) (pct : ℚ) : Loader α β :=
  ⟨path, pct, [], [], [], [], none⟩

/-- `DataLoader.split_data`: `number_histocal_data = int(pct * len(X))`;
`X_historical = X[:n]`, `y_historical = y[:n]`, `X = X[n+1:]`,
`y = y[n+1:]` (the record at index `n` is dropped). -/
def split_data {α β : Type} (l : Loader α β) : Loader α β :=
  let number_histocal_data := truncNat (l.percentage_historical_data * l.X.length)
  { l with
    X_historical := l.X.take number_histocal_data
    y_historical := l.y.take number_histocal_data
    X := l.X.drop (number_histocal_data + 1)
    y := l.y.drop (number_histocal_data + 1) }

/-- Per-column minimum of a numpy matrix column (`X.min(axis=0)` for one
column); sklearn rejects empty input, so the `[]` case is an unreachable
default. -/
def listMinD : List ℚ → ℚ
  | [] => 0
  | x :: xs => xs.foldl min x

/-- Per-column maximum, as `listMinD`. -/
def listMaxD : List ℚ → ℚ
  | [] => 0
  | x :: xs => xs.foldl max x

/-- The columns of a rectangular row-major matrix (all rows have the
length of the first row, as numpy guarantees for a 2-d array). -/
def colsOf (mat : List (List ℚ)) : List (List ℚ) :=
  (List.range (mat.headD []).length).map (fun j => mat.map (fun r => r.getD j 0))

/-- `MinMaxScaler.fit(mat)`: the per-feature `(data_min_, data_max_)`
pairs, one per column of the row-major matrix. -/
def mmsParams (mat : List (List ℚ)) : List (ℚ × ℚ) :=
  (colsOf mat).map (fun c => (listMinD c, listMaxD c))

/-- One transformed entry of `MinMaxScaler.transform` with the default
feature range `[0, 1]`: `(x - min) / (max - min)`, where a zero range is
replaced by a divisor of `1` (sklearn `_handle_zeros_in_scale`). -/
def mmsEntry (p : ℚ × ℚ) (x : ℚ) : ℚ :=
  (x - p.1) / (if p.2 - p.1 = 0 then 1 else p.2 - p.1)

/-- `MinMaxScaler.transform(mat)` with previously fitted parameters. -/
def mmsTransform (ps : List (ℚ × ℚ)) (mat : List (List ℚ)) : List (List ℚ) :=
  mat.map (fun row => List.zipWith mmsEntry ps row)

/-- `MinMaxScaler().fit_transform(mat)`: fit on `mat`, transform `mat`. -/
def mmsFitTransform (mat : List (List ℚ)) : List (List ℚ) :=
  mmsTransform (mmsParams mat) mat

/-- `DataLoader.normalization`: `mms = MinMaxScaler()`;
`X_historical = mms.fit_transform(X_historical)`; `X = mms.transform(X)`
(the scaler fitted on the historical partition is reused for the stream
partition). -/
def normalization {β : Type} (l : Loader (List ℚ) β) : Loader (List ℚ) β :=
  let P := mmsParams l.X_historical
  { l with
    X_historical := mmsTransform P l.X_historical
    X := mmsTransform P l.X }

/-- Contents of the pickle dictionary `{'X': .., 'y': .., 'X_historical':
.., 'y_historical': ..}`; an absent field models an absent key. -/
structure PickleDict (α β : Type) where
  X : Option (List α)
  y : Option (List β)
  X_historical : Option (List α)
  y_historical : Option (List β)

/-- A file on disk, as far as `pickle` is concerned: either unreadable
(`pickle.load` raises) or a dictionary. -/
inductive CacheFile (α β : Type)
  | corrupt : CacheFile α β
  | dict : PickleDict α β → CacheFile α β

/-- `DataLoader.save_data(path)`: `if not os.path.exists(path)`, open
`self.data_path` (NOT `path`) for writing and dump the four-key bundle
there with `pickle.dump`.  The returned map is the filesystem after the
call. -/
def save_data {α β : Type} (l : Loader α β) (path : String)
    (fs : String → Option (CacheFile α β)) : String → Option (CacheFile α β) :=
  if (fs path).isSome then fs
  else fun p =>
    if p = l.data_path then
      some (.dict ⟨some l.X, some l.y, some l.X_historical, some l.y_historical⟩)
    else fs p

/-- `DataLoader.load_from_pickle`: open `self.data_path`, `pickle.load`,
then assign `self.X`, `self.y`, `self.X_historical`, `self.y_historical`
in that order.  A missing file or unreadable pickle raises before any
assignment; a missing dictionary key raises (`KeyError`) after the
assignments for the earlier keys have already happened.  The Bool is
`true` iff the Python call returns without raising. -/
def load_from_pickle {α β : Type} (l : Loader α β)
    (fs : String → Option (CacheFile α β)) : Loader α β × Bool :=
  match fs l.data_path with
  | none => (l, false)
  | some .corrupt => (l, false)
  | some (.dict d) =>
    match d.X with
    | none => (l, false)
    | some x =>
      match d.y with
      | none => ({ l with X := x }, false)
      | some yv =>
        match d.X_historical with
        | none => ({ l with X := x, y := yv }, false)
        | some xh =>
          match d.y_historical with
          | none => ({ l with X := x, y := yv, X_historical := xh }, false)
          | some yh => ({ l with X := x, y := yv, X_historical := xh, y_historical := yh }, true)

/-- `DataLoader.get_classes`: returns `self.list_classes`. -/
def get_classes {α β : Type} (l : Loader α β) : Option (List β) :=
  l.list_classes

/- Helper lemmas about the split index. -/

lemma truncNat_eq_floor (q : ℚ) (hq : 0 ≤ q) : truncNat q = ⌊q⌋₊ := by
  have hnum : 0 ≤ q.num := Rat.num_nonneg.2 hq
  have hz : (truncNat q : ℤ) = ⌊q⌋ := by
    rw [Rat.floor_def, truncNat, Int.natCast_div, Int.toNat_of_nonneg hnum]
  have h2 := congrArg Int.toNat hz
  rwa [Int.toNat_natCast, Int.floor_toNat] at h2

lemma truncNat_lt_of_lt_one {q : ℚ} (hq0 : 0 ≤ q) {N : ℕ} (hN : 0 < N)
    (hq1 : q < 1) : truncNat (q * N) < N := by
  rw [truncNat_eq_floor _ (by positivity)]
  rw [Nat.floor_lt (by positivity)]
  calc q * N < 1 * N := by
        exact mul_lt_mul_of_pos_right hq1 (by exact_mod_cast hN)
    _ = N := one_mul _

lemma list_reconstruct {α : Type} (l : List α) (n : ℕ) (h : n < l.length) :
    l.take n ++ [l[n]] ++ l.drop (n + 1) = l := by
  rw [List.append_assoc, List.singleton_append,
    ← List.drop_eq_getElem_cons h, List.take_append_drop]

/-- C1: for a loaded dataset and a percentage in (0,1), `split_data` keeps
the original order: the historical partition is the first
`floor(pct * N)` records, the stream partition starts at index
`floor(pct * N) + 1` (so its length is `N - floor(pct * N) - 1`), and
historical ++ [the dropped record at index `floor(pct * N)`] ++ stream
reconstructs the original sequence, for features and labels alike. -/
theorem split_data_partitions {α β : Type} (l : Loader α β)
    (hp0 : 0 < l.percentage_historical_data)
    (hp1 : l.percentage_historical_data < 1)
    (hN : 0 < l.X.length) (hlen : l.y.length = l.X.length) :
    truncNat (l.percentage_historical_data * l.X.length) =
      ⌊l.percentage_historical_data * (l.X.length : ℚ)⌋₊ ∧
    (split_data l).X_historical =
      l.X.take (truncNat (l.percentage_historical_data * l.X.length)) ∧
    (split_data l).X =
      l.X.drop (truncNat (l.percentage_historical_data * l.X.length) + 1) ∧
    (split_data l).X_historical.length =
      truncNat (l.percentage_historical_data * l.X.length) ∧
    (split_data l).X.length =
      l.X.length - truncNat (l.percentage_historical_data * l.X.length) - 1 ∧
    (∃ h : truncNat (l.percentage_historical_data * l.X.length) < l.X.length,
      (split_data l).X_historical ++
        [l.X[truncNat (l.percentage_historical_data * l.X.length)]] ++
        (split_data l).X = l.X) ∧
    (∃ h : truncNat (l.percentage_historical_data * l.X.length) < l.y.length,
      (split_data l).y_historical ++
        [l.y[truncNat (l.percentage_historical_data * l.X.length)]] ++
        (split_data l).y = l.y) := by
  set n := truncNat (l.percentage_historical_data * l.X.length) with hn
  have hnX : n < l.X.length := truncNat_lt_of_lt_one hp0.le hN hp1
  have hnY : n < l.y.length := by rw [hlen]; exact hnX
  refine ⟨truncNat_eq_floor _ (by positivity), rfl, rfl, ?_, ?_, ⟨hnX, ?_⟩, ⟨hnY, ?_⟩⟩
  · simp [split_data, Nat.min_eq_left hnX.le]
  · simp [split_data]
    omega
  · exact list_reconstruct l.X n hnX
  · exact list_reconstruct l.y n hnY

/-- Concrete 5-record loader used to witness the split theorems. -/
def W1 : Loader ℚ ℚ :=
  ⟨"sea.csv", 2/5, [10, 20, 30, 40, 50], [1, 2, 3, 4, 5], [], [], none⟩

/-- C1 witness: the split theorem instantiated on a concrete 5-record
dataset with percentage 2/5, whose hypotheses all hold. -/
theorem split_data_partitions_witness :
    (0 < W1.percentage_historical_data ∧ W1.percentage_historical_data < 1 ∧
      0 < W1.X.length ∧ W1.y.length = W1.X.length ∧
      truncNat (W1.percentage_historical_data * W1.X.length) = 2) ∧
    ((split_data W1).X_historical.length =
        truncNat (W1.percentage_historical_data * W1.X.length) ∧
      ∃ h : truncNat (W1.percentage_historical_data * W1.X.length) < W1.X.length,
        (split_data W1).X_historical ++
          [W1.X[truncNat (W1.percentage_historical_data * W1.X.length)]] ++
          (split_data W1).X = W1.X) := by
  have h := split_data_partitions W1 (by norm_num [W1]) (by norm_num [W1])
    (by norm_num [W1]) (by norm_num [W1])
  refine ⟨⟨by norm_num [W1], by norm_num [W1], by norm_num [W1], by norm_num [W1], ?_⟩,
    h.2.2.2.1, h.2.2.2.2.2.1⟩
  have harg : W1.percentage_historical_data * (W1.X.length : ℚ) = 2 := by
    norm_num [W1]
  rw [harg]
  norm_num [truncNat]
  decide

/-- C9: at the boundary percentages, with a nonempty dataset: percentage 0
gives an empty historical partition yet still discards the first record
(the stream is records 1..N-1, not all N); percentage 1 gives a historical
partition holding all N records and an empty stream with nothing
discarded (historical + stream lengths total N, not N-1). -/
theorem split_data_boundary {α β : Type} (l : Loader α β)
    (hN : 0 < l.X.length) (hlen : l.y.length = l.X.length) :
    ((split_data { l with percentage_historical_data := 0 }).X_historical = [] ∧
      (split_data { l with percentage_historical_data := 0 }).X = l.X.drop 1 ∧
      (split_data { l with percentage_historical_data := 0 }).y = l.y.drop 1 ∧
      (split_data { l with percentage_historical_data := 0 }).X.length = l.X.length - 1 ∧
      (split_data { l with percentage_historical_data := 0 }).X.length < l.X.length) ∧
    ((split_data { l with percentage_historical_data := 1 }).X_historical = l.X ∧
      (split_data { l with percentage_historical_data := 1 }).X = [] ∧
      (split_data { l with percentage_historical_data := 1 }).y_historical = l.y ∧
      (split_data { l with percentage_historical_data := 1 }).y = [] ∧
      (split_data { l with percentage_historical_data := 1 }).X_historical.length +
        (split_data { l with percentage_historical_data := 1 }).X.length = l.X.length) := by
  have h0 : truncNat (0 : ℚ) = 0 := rfl
  have h1 : truncNat ((1 : ℚ) * l.X.length) = l.X.length := by
    rw [one_mul, truncNat_eq_floor _ (by positivity), Nat.floor_natCast]
  constructor
  · refine ⟨by simp [split_data, h0], by simp [split_data, h0], by simp [split_data, h0],
      by simp [split_data, h0], ?_⟩
    simp only [split_data, h0]
    simp
    omega
  · have hy1 : l.y.length ≤ l.X.length := le_of_eq hlen
    refine ⟨?_, ?_, ?_, ?_, ?_⟩ <;> simp only [split_data, h1] <;>
      simp [List.take_of_length_le, List.drop_eq_nil_of_le, hy1, Nat.le_succ_of_le hy1]

/-- C9 witness: the boundary theorem instantiated on the concrete
5-record loader. -/
theorem split_data_boundary_witness :
    (0 < W1.X.length ∧ W1.y.length = W1.X.length) ∧
    ((split_data { W1 with percentage_historical_data := 0 }).X_historical = [] ∧
      (split_data { W1 with percentage_historical_data := 0 }).X.length < W1.X.length) ∧
    ((split_data { W1 with percentage_historical_data := 1 }).X_historical = W1.X ∧
      (split_data { W1 with percentage_historical_data := 1 }).X = []) := by
  have h := split_data_boundary W1 (by norm_num [W1]) (by norm_num [W1])
  exact ⟨⟨by norm_num [W1], by norm_num [W1]⟩, ⟨h.1.1, h.1.2.2.2.2⟩, h.2.1, h.2.2.1⟩

/- Cache store: save/load. -/

/-- Concrete loader for the save/load theorems: its source file is
`data.csv`, and its arrays hold distinct values so that overwrites are
visible. -/
def L3 : Loader ℚ ℚ :=
  ⟨"data.csv", 1/5, [7], [8], [9], [11], none⟩

/-- The empty filesystem. -/
def emptyFS : String → Option (CacheFile ℚ ℚ) := fun _ => none

/-- C3 (the code contradicts it): on an empty filesystem, `save_data L3
"cache.pkl"` creates no file at `"cache.pkl"`; the bundle is written to
`self.data_path` (`"data.csv"`) instead, because `save_data` opens
`self.data_path` for writing after testing `os.path.exists(path)`. -/
theorem save_data_writes_data_path :
    save_data L3 "cache.pkl" emptyFS "cache.pkl" = none ∧
    save_data L3 "cache.pkl" emptyFS "data.csv" =
      some (.dict ⟨some L3.X, some L3.y, some L3.X_historical, some L3.y_historical⟩) := by
  constructor <;> rfl

/-- C4: saving is write-once with respect to observable filesystem
content: a second `save_data` at the same path (with the loader state
unchanged) leaves the filesystem exactly as after the first call, and
when a file already exists at the target path `save_data` is a silent
no-op that changes nothing. -/
theorem save_data_write_once {α β : Type} (l : Loader α β) (path : String)
    (fs : String → Option (CacheFile α β)) :
    save_data l path (save_data l path fs) = save_data l path fs ∧
    ((fs path).isSome → save_data l path fs = fs) := by
  constructor
  · by_cases h : (fs path).isSome
    · simp [save_data, h]
    · have h1 : save_data l path fs = fun p =>
          if p = l.data_path then
            some (.dict ⟨some l.X, some l.y, some l.X_historical, some l.y_historical⟩)
          else fs p := by
        simp [save_data, h]
      rw [h1]
      by_cases hp : path = l.data_path
      · simp [save_data, hp]
      · have h2 : (if path = l.data_path then
            some (CacheFile.dict ⟨some l.X, some l.y, some l.X_historical, some l.y_historical⟩)
          else fs path).isSome = false := by
          simp [hp, h]
        simp only [save_data, h2, Bool.false_eq_true, if_false]
        funext p
        by_cases hq : p = l.data_path <;> simp [hq]
  · intro h
    simp [save_data, h]

/-- A filesystem already holding a (corrupt) file at `"cache.pkl"`,
to witness the no-op branch of the write-once theorem. -/
def occupiedFS : String → Option (CacheFile ℚ ℚ) := fun p =>
  if p = "cache.pkl" then some .corrupt else none

/-- C4 witness: write-once instantiated at a concrete loader, path and
occupied filesystem, discharging the `isSome` hypothesis. -/
theorem save_data_write_once_witness :
    (occupiedFS "cache.pkl").isSome = true ∧
    save_data L3 "cache.pkl" occupiedFS = occupiedFS ∧
    save_data L3 "cache.pkl" (save_data L3 "cache.pkl" occupiedFS) =
      save_data L3 "cache.pkl" occupiedFS := by
  refine ⟨rfl, (save_data_write_once L3 "cache.pkl" occupiedFS).2 rfl,
    (save_data_write_once L3 "cache.pkl" occupiedFS).1⟩

/-- Concrete loader for the load theorems. -/
def L5 : Loader ℚ ℚ := ⟨"d.pkl", 1/5, [10], [20], [30], [40], none⟩

/-- A filesystem whose file at `L5.data_path` is a pickle dictionary
holding only the key `X` (the keys `y`, `X_historical`, `y_historical`
are absent). -/
def partialFS : String → Option (CacheFile ℚ ℚ) := fun p =>
  if p = "d.pkl" then some (.dict ⟨some [11], none, none, none⟩) else none

/-- C5 counterexample: loading a bundle that holds the key `X` but not
`y` fails, yet has already overwritten the loader's `X` field — the
failed load does NOT leave the four fields as they were. -/
theorem load_from_pickle_not_atomic :
    (load_from_pickle L5 partialFS).2 = false ∧
    (load_from_pickle L5 partialFS).1.X = [11] ∧
    (load_from_pickle L5 partialFS).1.X ≠ L5.X := by
  refine ⟨rfl, rfl, ?_⟩
  decide

/-- C5 amended: `load_from_pickle` fully populates all four fields on
success; a missing or unreadable file fails with all fields unchanged;
but a dictionary missing one of the four keys fails after the fields for
the keys read before it (in the order `X`, `y`, `X_historical`,
`y_historical`) have already been overwritten. -/
theorem load_from_pickle_partial_population {α β : Type} (l : Loader α β)
    (fs : String → Option (CacheFile α β)) :
    (fs l.data_path = none → load_from_pickle l fs = (l, false)) ∧
    (fs l.data_path = some .corrupt → load_from_pickle l fs = (l, false)) ∧
    (∀ x yv xh yh, fs l.data_path = some (.dict ⟨some x, some yv, some xh, some yh⟩) →
      load_from_pickle l fs =
        ({ l with X := x, y := yv, X_historical := xh, y_historical := yh }, true)) ∧
    (∀ x, fs l.data_path = some (.dict ⟨some x, none, none, none⟩) →
      load_from_pickle l fs = ({ l with X := x }, false)) ∧
    (∀ x yv, fs l.data_path = some (.dict ⟨some x, some yv, none, none⟩) →
      load_from_pickle l fs = ({ l with X := x, y := yv }, false)) ∧
    (∀ x yv xh, fs l.data_path = some (.dict ⟨some x, some yv, some xh, none⟩) →
      load_from_pickle l fs = ({ l with X := x, y := yv, X_historical := xh }, false)) := by
  refine ⟨fun h => ?_, fun h => ?_, fun x yv xh yh h => ?_, fun x h => ?_,
    fun x yv h => ?_, fun x yv xh h => ?_⟩ <;>
    simp [load_from_pickle, h]

/-- C5 amended witness: the characterization applied to the concrete
loader `L5`, on the empty filesystem (load fails, state untouched) and on
the partial single-key bundle (load fails, `X` already overwritten). -/
theorem load_from_pickle_partial_population_witness :
    load_from_pickle L5 (fun _ => none) = (L5, false) ∧
    load_from_pickle L5 partialFS = ({ L5 with X := [11] }, false) := by
  refine ⟨(load_from_pickle_partial_population L5 (fun _ => none)).1 rfl,
    (load_from_pickle_partial_population L5 partialFS).2.2.2.1 [11] rfl⟩

/- SEALoader: the continuous-feature variant. -/

/-- One parsed record of the SEA csv (`HEADER_NAMES['SEA']`:
`attribute_1`, `attribute_2`, `attribute_3`, `label`). -/
structure SEARow where
  attribute_1 : ℚ
  attribute_2 : ℚ
  attribute_3 : ℚ
  label : ℚ

/-- `np.unique` on a rational vector: the distinct values, in increasing
order. -/
def np_unique (l : List ℚ) : List ℚ := (l.insertionSort (· ≤ ·)).dedup

/-- The parsing stage of `SEALoader.__init__` (raw branch, before the
split): `X = sea_data[:, 1:3]` (columns `attribute_2`, `attribute_3`),
`y = sea_data[:, -1]` (the label column),
`list_classes = np.unique(y)`. -/
def SEALoader_parsed (path : String) (pct : ℚ) (rows : List SEARow) :
    Loader (List ℚ) ℚ :=
  { DataLoader_init (List ℚ) ℚ path pct with
    X := rows.map (fun r => [r.attribute_2, r.attribute_3])
    y := rows.map SEARow.label
    list_classes := some (np_unique (rows.map SEARow.label)) }

/-- `SEALoader.__init__` with `use_pickle_for_loading=False`: parse, then
`DataLoader.split_data`, then `DataLoader.normalization`, and finally the
constructor's own extra step `mms = MinMaxScaler();
self.X = mms.fit_transform(self.X)` — a fresh scaler refit on the stream
partition. -/
def SEALoader_fromRaw (path : String) (pct : ℚ) (rows : List SEARow) :
    Loader (List ℚ) ℚ :=
  let l2 := normalization (split_data (SEALoader_parsed path pct rows))
  { l2 with X := mmsFitTransform l2.X }

/-- `SEALoader.__init__` with `use_pickle_for_loading=True`: just
`load_from_pickle` on the freshly initialized loader. -/
def SEALoader_fromPickle (path : String) (pct : ℚ)
    (fs : String → Option (CacheFile (List ℚ) ℚ)) : Loader (List ℚ) ℚ × Bool :=
  load_from_pickle (DataLoader_init (List ℚ) ℚ path pct) fs

lemma load_from_pickle_list_classes {α β : Type} (l : Loader α β)
    (fs : String → Option (CacheFile α β)) :
    (load_from_pickle l fs).1.list_classes = l.list_classes := by
  unfold load_from_pickle
  cases h : fs l.data_path with
  | none => rfl
  | some cf =>
    cases cf with
    | corrupt => rfl
    | dict d =>
      obtain ⟨dx, dy, dxh, dyh⟩ := d
      cases dx <;> cases dy <;> cases dxh <;> cases dyh <;> rfl

/-- The 5-record SEA dataset used for the normalization counterexample
and the class-inventory witness.  With percentage 2/5 the historical
partition is rows 0-1, row 2 is dropped, and the stream is rows 3-4. -/
def seaRows : List SEARow :=
  [⟨0, 0, 0, 0⟩, ⟨0, 1, 1, 0⟩, ⟨0, 9, 9, 1⟩, ⟨0, 2, 2, 1⟩, ⟨0, 4, 4, 1⟩]

lemma sea_example_split :
    split_data (SEALoader_parsed "sea.csv" (2/5) seaRows) =
      { SEALoader_parsed "sea.csv" (2/5) seaRows with
        X_historical := [[0, 0], [1, 1]]
        y_historical := [0, 0]
        X := [[2, 2], [4, 4]]
        y := [1, 1] } := by
  have hn : truncNat ((SEALoader_parsed "sea.csv" (2/5) seaRows).percentage_historical_data *
      ((SEALoader_parsed "sea.csv" (2/5) seaRows).X.length : ℚ)) = 2 := by
    have harg : (SEALoader_parsed "sea.csv" (2/5) seaRows).percentage_historical_data *
        ((SEALoader_parsed "sea.csv" (2/5) seaRows).X.length : ℚ) = 2 := by
      norm_num [SEALoader_parsed, DataLoader_init, seaRows]
    rw [harg]
    decide
  unfold split_data
  rw [hn]
  rfl

/-- C2 counterexample: on the concrete 5-record SEA dataset with
percentage 2/5, the stream partition held by the constructed loader is
NOT the stream partition transformed with the range fitted on the
historical partition — the constructor refits a fresh scaler on the
stream (lines 138-139), so the claim "the same fitted range is applied
unchanged to the stream partition, never refit" fails for the SEA
variant. -/
theorem sea_stream_is_refit :
    (SEALoader_fromRaw "sea.csv" (2/5) seaRows).X = [[0, 0], [1, 1]] ∧
    mmsTransform
        (mmsParams (split_data (SEALoader_parsed "sea.csv" (2/5) seaRows)).X_historical)
        (split_data (SEALoader_parsed "sea.csv" (2/5) seaRows)).X = [[2, 2], [4, 4]] ∧
    (SEALoader_fromRaw "sea.csv" (2/5) seaRows).X ≠
      mmsTransform
        (mmsParams (split_data (SEALoader_parsed "sea.csv" (2/5) seaRows)).X_historical)
        (split_data (SEALoader_parsed "sea.csv" (2/5) seaRows)).X := by
  have hX : (SEALoader_fromRaw "sea.csv" (2/5) seaRows).X =
      mmsFitTransform
        (mmsTransform
          (mmsParams (split_data (SEALoader_parsed "sea.csv" (2/5) seaRows)).X_historical)
          (split_data (SEALoader_parsed "sea.csv" (2/5) seaRows)).X) := rfl
  have htr : mmsTransform
      (mmsParams (split_data (SEALoader_parsed "sea.csv" (2/5) seaRows)).X_historical)
      (split_data (SEALoader_parsed "sea.csv" (2/5) seaRows)).X = [[2, 2], [4, 4]] := by
    rw [sea_example_split]
    norm_num [mmsTransform, mmsParams, mmsEntry, colsOf, listMinD, listMaxD,
      List.range_succ]
  have hfit : mmsFitTransform [[2, 2], [4, 4]] = ([[0, 0], [1, 1]] : List (List ℚ)) := by
    norm_num [mmsFitTransform, mmsTransform, mmsParams, mmsEntry, colsOf, listMinD,
      listMaxD, List.range_succ]
  refine ⟨?_, htr, ?_⟩
  · rw [hX, htr, hfit]
  · rw [hX, htr, hfit]
    decide

/-- C2 amended: `DataLoader.normalization` itself fits the min-max range
on the historical partition only and applies that same fitted range,
without refitting, to the stream partition; but the SEA constructor then
fits a FRESH scaler on the already-transformed stream and re-transforms
it, so the stream the SEA loader ends up holding is the
historical-range transform composed with a refit on stream data. -/
theorem normalization_fit_on_historical (path : String) (pct : ℚ) (rows : List SEARow) :
    (∀ (l : Loader (List ℚ) ℚ),
      (normalization l).X_historical =
        mmsTransform (mmsParams l.X_historical) l.X_historical ∧
      (normalization l).X = mmsTransform (mmsParams l.X_historical) l.X) ∧
    (SEALoader_fromRaw path pct rows).X_historical =
      mmsTransform (mmsParams (split_data (SEALoader_parsed path pct rows)).X_historical)
        (split_data (SEALoader_parsed path pct rows)).X_historical ∧
    (SEALoader_fromRaw path pct rows).X =
      mmsFitTransform
        (mmsTransform (mmsParams (split_data (SEALoader_parsed path pct rows)).X_historical)
          (split_data (SEALoader_parsed path pct rows)).X) :=
  ⟨fun _ => ⟨rfl, rfl⟩, rfl, rfl⟩

lemma mem_np_unique {c : ℚ} {l : List ℚ} : c ∈ np_unique l ↔ c ∈ l := by
  rw [np_unique, List.mem_dedup]
  exact (List.perm_insertionSort _ l).mem_iff

/-- C6: a SEA loader built from a raw file has `get_classes` equal to
`np.unique` of the labels of ALL original records — the inventory is
computed after the labels are extracted and before the split, so it
ranges over historical, dropped and stream labels alike (every label the
loader still holds after the split is one of the original labels); a
loader populated through `load_from_pickle` has `get_classes` equal to
`none`. -/
theorem get_classes_inventory (path : String) (pct : ℚ) (rows : List SEARow) :
    get_classes (SEALoader_fromRaw path pct rows) =
      some (np_unique (rows.map SEARow.label)) ∧
    (∀ c, c ∈ np_unique (rows.map SEARow.label) ↔ c ∈ rows.map SEARow.label) ∧
    (∀ c, c ∈ (SEALoader_fromRaw path pct rows).y_historical →
      c ∈ rows.map SEARow.label) ∧
    (∀ c, c ∈ (SEALoader_fromRaw path pct rows).y → c ∈ rows.map SEARow.label) ∧
    (∀ fs, get_classes (SEALoader_fromPickle path pct fs).1 = none) := by
  refine ⟨rfl, fun c => mem_np_unique, fun c hc => ?_, fun c hc => ?_,
    fun fs => load_from_pickle_list_classes _ fs⟩
  · exact List.Sublist.mem hc (List.take_sublist _ _)
  · exact List.Sublist.mem hc (List.drop_sublist _ _)

/-- C6 witness: the inventory theorem instantiated on the concrete
5-record SEA dataset, with the membership hypotheses discharged at the
labels 0 (a historical label) and 1 (a stream label). -/
theorem get_classes_inventory_witness :
    get_classes (SEALoader_fromRaw "sea.csv" (2/5) seaRows) =
      some (np_unique (seaRows.map SEARow.label)) ∧
    ((0 : ℚ) ∈ np_unique (seaRows.map SEARow.label) ↔
      (0 : ℚ) ∈ seaRows.map SEARow.label) ∧
    (0 : ℚ) ∈ seaRows.map SEARow.label ∧
    (1 : ℚ) ∈ seaRows.map SEARow.label ∧
    get_classes (SEALoader_fromPickle "sea.csv" (2/5) (fun _ => none)).1 = none := by
  have h := get_classes_inventory "sea.csv" (2/5) seaRows
  have hyh : (0 : ℚ) ∈ (SEALoader_fromRaw "sea.csv" (2/5) seaRows).y_historical := by
    have : (SEALoader_fromRaw "sea.csv" (2/5) seaRows).y_historical =
        (split_data (SEALoader_parsed "sea.csv" (2/5) seaRows)).y_historical := rfl
    rw [this, sea_example_split]
    decide
  have hys : (1 : ℚ) ∈ (SEALoader_fromRaw "sea.csv" (2/5) seaRows).y := by
    have : (SEALoader_fromRaw "sea.csv" (2/5) seaRows).y =
        (split_data (SEALoader_parsed "sea.csv" (2/5) seaRows)).y := rfl
    rw [this, sea_example_split]
    decide
  exact ⟨h.1, h.2.1 0, h.2.2.1 0 hyh, h.2.2.2.1 1 hys, h.2.2.2.2 _⟩

/- UsenetLoader: the binary-indicator variant. -/

/-- A cell of the usenet dataframe after `usenet_df.replace(d)`: the
frame holds object entries, either an original string or a numeric
replacement. -/
inductive UCell
  | str : String → UCell
  | num : ℚ → UCell
deriving DecidableEq

/-- The replacement dictionary
`d = {'no': 0., 'yes': 1., 't': 1., 'f': 0., 'tt': 1}` of
`UsenetLoader.__init__` (`tt` marked in the source as an error in the
dataframe), applied to one cell.  `DataFrame.replace` matches values
case-sensitively and applies to every column of the frame. -/
def usenet_replace (s : String) : UCell :=
  if s = "no" then .num 0
  else if s = "yes" then .num 1
  else if s = "t" then .num 1
  else if s = "f" then .num 0
  else if s = "tt" then .num 1
  else .str s

/-- Lines 233-237 of `UsenetLoader.__init__`: read the csv rows, apply
the replacement dictionary to the whole frame, then take
`X = usenet_data[:, :-1]` and `y = usenet_data[:, -1]`. -/
def usenet_parse (rows : List (List String)) : List (List UCell) × List UCell :=
  let usenet_data := rows.map (fun r => r.map usenet_replace)
  (usenet_data.map (fun r => r.dropLast),
    usenet_data.map (fun r => r.getLastD (.str "")))

/-- `UsenetLoader.__init__` with `use_pickle_for_loading=False`: parse,
record the class inventory (`np.unique(y)`: the distinct label values;
their numpy ordering is irrelevant to the claims settled here and is
modelled as `dedup`), then `DataLoader.split_data`.  No normalization. -/
def UsenetLoader_fromRaw (path : String) (pct : ℚ) (rows : List (List String)) :
    Loader (List UCell) UCell :=
  split_data
    { DataLoader_init (List UCell) UCell path pct with
      X := (usenet_parse rows).1
      y := (usenet_parse rows).2
      list_classes := some (usenet_parse rows).2.dedup }

/-- C7 counterexample: the record row `"yes","f","tt","no",labelA` with
`labelA = "yes"` does NOT keep its label verbatim — the replacement
dictionary is applied to the label column too, storing `1.0` in place of
the string `"yes"`. -/
theorem usenet_label_not_verbatim :
    (usenet_parse [["yes", "f", "tt", "no", "yes"]]).2 = [UCell.num 1] ∧
    UCell.num 1 ≠ UCell.str "yes" := by
  exact ⟨rfl, by decide⟩

/-- C7 amended: a record row `"yes","f","tt","no",labelA` is mapped to
the feature vector `[1.0, 0.0, 1.0, 0.0]` (tokens `yes`, `t`, `tt` map
to 1.0 and `no`, `f` to 0.0, case-sensitively: a capitalized variant is
not replaced), and the label `labelA` is preserved verbatim provided it
is not itself one of the five vocabulary tokens. -/
theorem usenet_row_mapping (labelA : String)
    (h : labelA ∉ (["no", "yes", "t", "f", "tt"] : List String)) :
    (usenet_parse [["yes", "f", "tt", "no", labelA]]).1 =
      [[UCell.num 1, UCell.num 0, UCell.num 1, UCell.num 0]] ∧
    (usenet_parse [["yes", "f", "tt", "no", labelA]]).2 = [UCell.str labelA] ∧
    usenet_replace "Yes" = UCell.str "Yes" := by
  simp only [List.mem_cons, List.mem_singleton, not_or] at h
  obtain ⟨h1, h2, h3, h4, h5⟩ := h
  refine ⟨?_, ?_, by decide⟩ <;>
    simp [usenet_parse, usenet_replace, h1, h2, h3, h4, h5]

/-- C7 witness: the amended row-mapping theorem at the concrete
non-vocabulary label `"comp.graphics"`. -/
theorem usenet_row_mapping_witness :
    ("comp.graphics" ∉ (["no", "yes", "t", "f", "tt"] : List String)) ∧
    (usenet_parse [["yes", "f", "tt", "no", "comp.graphics"]]).1 =
      [[UCell.num 1, UCell.num 0, UCell.num 1, UCell.num 0]] ∧
    (usenet_parse [["yes", "f", "tt", "no", "comp.graphics"]]).2 =
      [UCell.str "comp.graphics"] := by
  refine ⟨by decide, (usenet_row_mapping "comp.graphics" (by decide)).1,
    (usenet_row_mapping "comp.graphics" (by decide)).2.1⟩

/-- C10: the replacement dictionary is applied to every column,
including the final label column: a record whose label value is itself
one of the vocabulary tokens gets a numeric label code, not the original
string (and the feature columns are the replaced prefix of the row). -/
theorem usenet_replace_hits_label (pre : List String) (t : String)
    (ht : t ∈ (["no", "yes", "t", "f", "tt"] : List String)) :
    (usenet_parse [pre ++ [t]]).1 = [pre.map usenet_replace] ∧
    ∃ q : ℚ, (usenet_parse [pre ++ [t]]).2 = [UCell.num q] ∧
      (usenet_parse [pre ++ [t]]).2 ≠ [UCell.str t] := by
  have hlast : (usenet_parse [pre ++ [t]]).2 = [usenet_replace t] := by
    simp [usenet_parse]
  constructor
  · simp [usenet_parse]
  · rw [hlast]
    fin_cases ht
    · exact ⟨0, rfl, by decide⟩
    · exact ⟨1, rfl, by decide⟩
    · exact ⟨1, rfl, by decide⟩
    · exact ⟨0, rfl, by decide⟩
    · exact ⟨1, rfl, by decide⟩

/-- C10 witness: on the row `["yes", "no"]`, whose label `"no"` is a
vocabulary token, the stored label is the numeric code `0.0`. -/
theorem usenet_replace_hits_label_witness :
    ("no" ∈ (["no", "yes", "t", "f", "tt"] : List String)) ∧
    (usenet_parse [["yes"] ++ ["no"]]).1 = [["yes"].map usenet_replace] ∧
    (∃ q : ℚ, (usenet_parse [["yes"] ++ ["no"]]).2 = [UCell.num q] ∧
      (usenet_parse [["yes"] ++ ["no"]]).2 ≠ [UCell.str "no"]) := by
  refine ⟨by decide, (usenet_replace_hits_label ["yes"] "no" (by decide)).1,
    (usenet_replace_hits_label ["yes"] "no" (by decide)).2⟩

/- KDDCupLoader: symbolic column encoding (dummies=False mode). -/

/-- A cell of the symbolic dataframe: an original string, or the integer
assigned by a `LabelEncoder`. -/
inductive SCell
  | s : String → SCell
  | n : ℕ → SCell
deriving DecidableEq

/-- Bool-valued lexicographic order on lists of naturals. -/
def lexLe : List ℕ → List ℕ → Bool
  | [], _ => true
  | _ :: _, [] => false
  | x :: xs, y :: ys => if x < y then true else if x = y then lexLe xs ys else false

/-- Lexicographic (code-point) order on strings, the order `np.unique`
sorts string arrays by. -/
def strLeB (a b : String) : Bool :=
  lexLe (a.toList.map Char.toNat) (b.toList.map Char.toNat)

/-- The string values held by a column (the columns being encoded hold
only strings). -/
def cellStrs (col : List SCell) : List String :=
  col.filterMap (fun c => match c with | .s v => some v | .n _ => none)

/-- `LabelEncoder.fit` on one column: `classes_ = np.unique(column)`,
the distinct strings in increasing lexicographic order. -/
def leClasses (col : List SCell) : List String :=
  ((cellStrs col).insertionSort (fun a b => strLeB a b = true)).dedup

/-- `LabelEncoder.transform` of one cell: a string becomes its index in
the sorted class array. -/
def leTransformCell (classes : List String) : SCell → SCell
  | .s v => .n (classes.indexOf v)
  | .n k => .n k

/-- `LabelEncoder.inverse_transform` of one cell: an integer code is
looked up in the recorded class array. -/
def leInverseCell (classes : List String) : SCell → SCell
  | .n k => .s (classes.getD k "")
  | .s v => .s v

/-- The fields of `KDDCupLoader` touched by the symbolic encoding: the
symbolic dataframe (columns keyed by name) and the per-column encoder
registry `self.symbolic_encoder = defaultdict(LabelEncoder)`, recorded
as the fitted class array of each encoded column. -/
structure KDDSym where
  symbolic_df : List (String × List SCell)
  symbolic_encoder : String → Option (List String)

/-- `KDDCupLoader.__encode_symbolic_df`:
`self.symbolic_df = self.symbolic_df.apply(lambda x:
self.symbolic_encoder[x.name].fit_transform(x))` — each column is
replaced by its integer encoding and the encoder fitted on it is
recorded under the column's name. -/
def encode_symbolic_df (df : List (String × List SCell)) : KDDSym :=
  { symbolic_df :=
      df.map (fun col => (col.1, col.2.map (leTransformCell (leClasses col.2))))
    symbolic_encoder := fun nm =>
      (df.find? (fun col => col.1 == nm)).map (fun col => leClasses col.2) }

/-- The frame computed by the `DataFrame.apply` inside
`inverse_encode_symbolic_df`: every column inverse-transformed through
the encoder recorded under its name. -/
def inverse_encode_value (st : KDDSym) : List (String × List SCell) :=
  st.symbolic_df.map (fun col =>
    (col.1, col.2.map (leInverseCell ((st.symbolic_encoder col.1).getD []))))

/-- `KDDCupLoader.inverse_encode_symbolic_df`: the body
`self.symbolic_df.apply(lambda x:
self.symbolic_encoder[x.name].inverse_transform(x))` computes
`inverse_encode_value` but neither assigns it to `self.symbolic_df` nor
returns it — the method leaves the loader state unchanged (and the
Python call returns `None`). -/
def inverse_encode_symbolic_df (st : KDDSym) : KDDSym := st

/-- A concrete symbolic frame with two columns, as extracted from the
KDD csv in the `dummies=False` branch. -/
def kddSymRaw : List (String × List SCell) :=
  [("protocol_type", [.s "udp", .s "tcp", .s "udp"]),
    ("flag", [.s "SF", .s "S0", .s "SF"])]

/-- C8 (the code contradicts it): after `__encode_symbolic_df`, calling
`inverse_encode_symbolic_df` leaves the stored symbolic frame still
integer-encoded — the original strings are not restored (and nothing is
returned), even though the value the method computes and discards is
exactly the original frame. -/
theorem inverse_encode_discards_result :
    (inverse_encode_symbolic_df (encode_symbolic_df kddSymRaw)).symbolic_df =
      [("protocol_type", [.n 1, .n 0, .n 1]), ("flag", [.n 1, .n 0, .n 1])] ∧
    (inverse_encode_symbolic_df (encode_symbolic_df kddSymRaw)).symbolic_df ≠
      kddSymRaw ∧
    inverse_encode_value (encode_symbolic_df kddSymRaw) = kddSymRaw := by
  refine ⟨by decide, by decide, by decide⟩
